import Mathlib

/-!
Shallow embedding of the GoBlog content pipeline and live-serving core.

The definitions below are transcribed from the Go sources:

* `Post`, `Post.validate`, `slugify`, `Post.generateSlug`, `Post.hasTag`,
  `filterByTag`, `sortByDate`, `getAllTags` — from `pkg/models` (the post
  model file, `src/unnamed/part_018`).
* `parseDirectory` — from the parser's `ParseDirectory` (`src/unnamed/part_022`),
  with the markdown decode step (`ParseFile`, which is a thin wrapper around the
  external goldmark dependency) abstracted as a function parameter.
* `assembleRawBlog`, `assembleBlogWithTemplates` — from
  `pkg/generator/generator.go`, with the template renderer abstracted as a
  record of render functions (the templates themselves are an external
  dependency).
* `serveBlog`, `handlePost`, `handleTag`, `handleIndex`, `handleTagsIndex` —
  from `pkg/server/handler.go` (the `http.ServeMux` registration in
  `generateHandler`, at the default blog root).
* `ServerState`, `refreshHandler`, `updatePosts` — from `pkg/server/server.go`.

Modelling conventions: Go `[]byte`/rendered HTML is modelled as `String`;
`time.Time` is modelled as a `Nat` ordinal (so `t.Before(u)` is `t < u` and
`t.IsZero()` is `t = 0`); Go maps are modelled as association lists with
insert-or-replace (`mapInsert`), whose key set matches the Go map's key set;
`strings.ToLower` is modelled for ASCII letters, which is exact for every
input considered here.
-/

namespace GoBlog

/-- Lowercase an ASCII letter, other characters unchanged
(models the character action of Go strings.ToLower on ASCII input). -/
def asciiLower (c : Char) : Char :=
  if 'A' ≤ c ∧ c ≤ 'Z' then Char.ofNat (c.toNat + 32) else c

/-- Lowercase a string character by character (Go strings.ToLower, ASCII). -/
def lowerStr (s : String) : String :=
  ⟨s.data.map asciiLower⟩

/-- Case-insensitive string equality (Go strings.EqualFold, ASCII). -/
def eqFold (a b : String) : Bool :=
  lowerStr a = lowerStr b

/-! ## The Post model (pkg/models, src/unnamed/part_018) -/

/-- Transcription of the `Post` struct: frontmatter fields (title, date,
description, tags) plus the generated fields. `content` stands for the
rendered HTML bytes, `htmlContent` mirrors Go's template.HTML copy of it. -/
structure Post where
  title : String := ""
  date : Nat := 0
  description : String := ""
  tags : List String := []
  slug : String := ""
  content : String := ""
  htmlContent : String := ""
  rawContent : String := ""
  sourcePath : String := ""
  blogRoot : String := ""
  deriving DecidableEq, Repr

/-- Transcription of `Post.Validate`: title non-empty, date non-zero,
description non-empty; the error message carries the source path. -/
def Post.validate (p : Post) : Except String Unit :=
  if p.title = "" then
    .error ("post missing required field: title (source: " ++ p.sourcePath ++ ")")
  else if p.date = 0 then
    .error ("post missing required field: date (source: " ++ p.sourcePath ++ ")")
  else if p.description = "" then
    .error ("post missing required field: description (source: " ++ p.sourcePath ++ ")")
  else
    .ok ()

/-- Character filter used by `slugify`: keep lowercase letters, digits and
hyphens (the Go loop over the string builder). -/
def slugChar (c : Char) : Bool :=
  ('a' ≤ c ∧ c ≤ 'z') ∨ ('0' ≤ c ∧ c ≤ '9') ∨ c = '-'

/-- Collapse consecutive hyphens to a single hyphen.  This is the fixpoint of
the Go loop `for strings.Contains(slug, "--") { ReplaceAll "--" "-" }`. -/
def collapseHyphens : List Char → List Char
  | [] => []
  | [c] => [c]
  | c1 :: c2 :: rest =>
    if c1 = '-' ∧ c2 = '-' then collapseHyphens (c2 :: rest)
    else c1 :: collapseHyphens (c2 :: rest)

/-- Trim hyphens from both ends (Go strings.Trim(slug, "-")). -/
def trimHyphens (l : List Char) : List Char :=
  ((l.dropWhile (fun c => c = '-')).reverse.dropWhile (fun c => c = '-')).reverse

/-- Transcription of `slugify`: lowercase, replace spaces/underscores with
hyphens, drop every character that is not alphanumeric or a hyphen, collapse
consecutive hyphens, trim leading/trailing hyphens. -/
def slugify (s : String) : String :=
  let l := s.data.map asciiLower
  let l := l.map (fun c => if c = ' ' ∨ c = '_' then '-' else c)
  let l := l.filter slugChar
  ⟨trimHyphens (collapseHyphens l)⟩

/-- Last path element (Go filepath.Base, for non-empty slash-separated
paths without a trailing slash, which is what the scanner produces). -/
def pathBase (s : String) : String :=
  ⟨(s.data.reverse.takeWhile (fun c => c ≠ '/')).reverse⟩

/-- File name extension (Go filepath.Ext): the suffix starting at the final
dot of the last path element, empty if that element has no dot. -/
def pathExt (s : String) : String :=
  let rev := s.data.reverse.takeWhile (fun c => c ≠ '/')
  if '.' ∈ rev then ⟨'.' :: (rev.takeWhile (fun c => c ≠ '.')).reverse⟩
  else ""

/-- Drop a suffix if present (Go strings.TrimSuffix). -/
def trimSuffix (s suffix : String) : String :=
  if suffix.data ≠ [] ∧ s.data.reverse.take suffix.data.length = suffix.data.reverse
  then ⟨s.data.take (s.data.length - suffix.data.length)⟩
  else s

/-- Transcription of `Post.GenerateSlug`: keep an existing slug, otherwise
slugify the title, otherwise slugify the file name without its extension. -/
def Post.generateSlug (p : Post) : Post :=
  if p.slug ≠ "" then p
  else if p.title ≠ "" then { p with slug := slugify p.title }
  else if p.sourcePath ≠ "" then
    let filename := pathBase p.sourcePath
    { p with slug := slugify (trimSuffix filename (pathExt filename)) }
  else p

/-- Transcription of `Post.HasTag`: case-insensitive membership test. -/
def Post.hasTag (p : Post) (tag : String) : Bool :=
  p.tags.any (fun t => eqFold t tag)

/-! ## PostList operations (pkg/models, src/unnamed/part_018) -/

/-- Transcription of `PostList.FilterByTag`. -/
def filterByTag (pl : List Post) (tag : String) : List Post :=
  pl.filter (fun p => p.hasTag tag)

/-- One iteration of the outer loop of `PostList.SortByDate`: carry the value
currently in slot `i` across slots `i+1 .. n-1`, swapping whenever the carried
value's date is before the slot's date.  Returns the final slot-`i` value
(the date maximum) together with the modified remainder of the list. -/
def innerPass (x : Post) : List Post → Post × List Post
  | [] => (x, [])
  | y :: ys =>
    if x.date < y.date then
      let r := innerPass y ys
      (r.1, x :: r.2)
    else
      let r := innerPass x ys
      (r.1, y :: r.2)

/-- The outer loop of `PostList.SortByDate`, with the iteration count made
explicit (the Go loop runs once per index). -/
def sortAux : Nat → List Post → List Post
  | 0, l => l
  | _ + 1, [] => []
  | n + 1, x :: xs =>
    let r := innerPass x xs
    r.1 :: sortAux n r.2

/-- Transcription of `PostList.SortByDate`: the nested-loop exchange sort
from the source (`if pl[i].Date.Before(pl[j].Date) { swap }`), expressed as a
pure function on lists. -/
def sortByDate (l : List Post) : List Post :=
  sortAux l.length l

/-- Transcription of `PostList.GetAllTags`: insert every tag of every post
into a set keyed by the exact tag string, then list the keys.  Go iterates
the map in unspecified order; this model lists keys in first-insertion
order, which realises the same key set. -/
def getAllTags (pl : List Post) : List String :=
  pl.foldl (fun acc p =>
    p.tags.foldl (fun acc t => if t ∈ acc then acc else acc ++ [t]) acc) []

/-! ## Go map model

A Go `map[string]V` is modelled as an association list with insert-or-replace.
Only the key set and the key-to-value association are observable through the
claims; Go's unspecified iteration order is never relied on. -/

/-- Association-list model of a Go map; `mapInsert` below keeps keys unique. -/
def GoMap (V : Type) : Type := List (String × V)

/-- The empty map (Go make(map[string]V)). -/
def mapEmpty {V : Type} : GoMap V := []

/-- Insert-or-replace (Go m[k] = v). -/
def mapInsert {V : Type} : GoMap V → String → V → GoMap V
  | [], k, v => [(k, v)]
  | (k', v') :: rest, k, v =>
    if k' = k then (k', v) :: rest else (k', v') :: mapInsert rest k v

/-- Lookup (Go v, ok := m[k]). -/
def mapLookup {V : Type} : GoMap V → String → Option V
  | [], _ => none
  | (k', v') :: rest, k => if k' = k then some v' else mapLookup rest k

/-- The key list of a map. -/
def mapKeys {V : Type} (m : GoMap V) : List String := m.map Prod.fst

/-- Number of entries (Go len(m)). -/
def mapSize {V : Type} (m : GoMap V) : Nat := m.length

/-! ## GeneratedBlog and page data (pkg/generator, pkg/models) -/

/-- Transcription of the `GeneratedBlog` struct: slug-to-bytes posts map,
index page bytes, tag-name-to-bytes tags map, tags-index page bytes. -/
structure GeneratedBlog where
  posts : GoMap String
  index : String
  tags : GoMap String
  tagsIndex : String

/-- Transcription of `NewEmptyGeneratedBlog`. -/
def newEmptyGeneratedBlog : GeneratedBlog :=
  { posts := mapEmpty, index := "", tags := mapEmpty, tagsIndex := "" }

/-- Transcription of `models.BaseData` (site-level and page-level fields;
`year` is the value of time.Now().Year() at assembly time, threaded in as an
explicit input). -/
structure BaseData where
  siteTitle : String
  pageTitle : String
  description : String
  year : Nat
  blogRoot : String
  deriving DecidableEq

/-- Transcription of `models.PostPageData`. -/
structure PostPageData where
  base : BaseData
  post : Post
  deriving DecidableEq

/-- Transcription of `models.IndexPageData`. -/
structure IndexPageData where
  base : BaseData
  posts : List Post
  totalPosts : Nat
  deriving DecidableEq

/-- Transcription of `models.TagPageData`. -/
structure TagPageData where
  base : BaseData
  tag : String
  posts : List Post
  postCount : Nat
  deriving DecidableEq

/-- Transcription of `models.TagInfo`. -/
structure TagInfo where
  name : String
  postCount : Nat
  deriving DecidableEq

/-- Transcription of `models.TagsIndexPageData`. -/
structure TagsIndexPageData where
  base : BaseData
  tags : List TagInfo
  totalTags : Nat
  deriving DecidableEq

/-! ## The generator (pkg/generator/generator.go)

The `TemplateRenderer` is the external html/template dependency: an opaque
record of four render functions, each returning bytes or an error. -/

/-- Abstract render dependency (pkg/generator/templates.go wraps
html/template execution; the claims treat it as an opaque collaborator). -/
structure TemplateRenderer where
  renderPost : PostPageData → Except String String
  renderIndex : IndexPageData → Except String String
  renderTag : TagPageData → Except String String
  renderTagsIndex : TagsIndexPageData → Except String String

/-- The generator's configuration fields used by the assembly functions
(`PostsDir` is consumed before assembly and is not needed here). -/
structure Generator where
  rawOutput : Bool := false
  siteTitle : String := "GoBlog"
  blogRoot : String := "/"
  renderer : Option TemplateRenderer := none

/-- Structured image of the fmt.Errorf values produced by
`assembleBlogWithTemplates`: each constructor records the offending slug or
tag exactly where the Go error message interpolates it. -/
inductive AssembleError where
  | nilRenderer : AssembleError
  | renderPostFailed (slug : String) (cause : String) : AssembleError
  | renderIndexFailed (cause : String) : AssembleError
  | renderTagFailed (tag : String) (cause : String) : AssembleError
  | renderTagsIndexFailed (cause : String) : AssembleError
  deriving DecidableEq

/-- Transcription of `Generator.assembleRawBlog`:
`blog.Posts[post.Slug] = post.Content` for each post, everything else empty. -/
def assembleRawBlog (posts : List Post) : GeneratedBlog :=
  { newEmptyGeneratedBlog with
    posts := posts.foldl (fun m p => mapInsert m p.slug p.content) mapEmpty }

/-- The `PostPageData` built for one post in the per-post render loop. -/
def postPageData (g : Generator) (year : Nat) (p : Post) : PostPageData :=
  { base := { siteTitle := g.siteTitle, pageTitle := p.title,
              description := p.description, year := year, blogRoot := g.blogRoot },
    post := p }

/-- The per-post render loop: render each post page in order, inserting the
result under the post's slug; the first failure aborts with a
`renderPostFailed` carrying that post's slug. -/
def renderAllPosts (r : TemplateRenderer) (g : Generator) (year : Nat) :
    List Post → GoMap String → Except AssembleError (GoMap String)
  | [], acc => .ok acc
  | p :: rest, acc =>
    match r.renderPost (postPageData g year p) with
    | .error c => .error (.renderPostFailed p.slug c)
    | .ok bytes => renderAllPosts r g year rest (mapInsert acc p.slug bytes)

/-- The `TagPageData` built for one tag in the tag-page render loop
(the post list is filtered case-insensitively by the tag). -/
def tagPageData (g : Generator) (year : Nat) (posts : List Post) (tag : String) :
    TagPageData :=
  { base := { siteTitle := g.siteTitle, pageTitle := "Tag: " ++ tag,
              description := "Posts tagged with " ++ tag, year := year,
              blogRoot := g.blogRoot },
    tag := tag, posts := filterByTag posts tag,
    postCount := (filterByTag posts tag).length }

/-- The tag-page render loop over the deduplicated tag list; the first
failure aborts with a `renderTagFailed` carrying that tag. -/
def renderAllTags (r : TemplateRenderer) (g : Generator) (year : Nat)
    (posts : List Post) :
    List String → GoMap String → Except AssembleError (GoMap String)
  | [], acc => .ok acc
  | tag :: rest, acc =>
    match r.renderTag (tagPageData g year posts tag) with
    | .error c => .error (.renderTagFailed tag c)
    | .ok bytes => renderAllTags r g year posts rest (mapInsert acc tag bytes)

/-- Insertion sort used to model Go's sort.Slice on the tag-info list
(comparison: lexicographic on case-lowered names; no claim depends on the
relative order of names that are equal after lowering). -/
def insertTagInfo (x : TagInfo) : List TagInfo → List TagInfo
  | [] => [x]
  | y :: ys =>
    if lowerStr x.name < lowerStr y.name then x :: y :: ys
    else y :: insertTagInfo x ys

/-- Sort tag infos alphabetically by case-lowered name. -/
def sortTagInfos (l : List TagInfo) : List TagInfo :=
  l.foldr insertTagInfo []

/-- The BlogRoot enrichment loop before the index render (in Go it mutates
the shared post pointers in place). -/
def enrichPosts (g : Generator) (posts : List Post) : List Post :=
  posts.map (fun p => { p with blogRoot := g.blogRoot })

/-- The tag-info list built for the tags index page, one entry per tag with
its case-insensitive post count. -/
def tagInfosOf (posts : List Post) (tags : List String) : List TagInfo :=
  tags.map (fun t => { name := t, postCount := (filterByTag posts t).length })

/-- The `IndexPageData` built for the landing page. -/
def indexPageData (g : Generator) (year : Nat) (posts : List Post) :
    IndexPageData :=
  { base := { siteTitle := g.siteTitle, pageTitle := "Home",
              description := "Recent blog posts", year := year,
              blogRoot := g.blogRoot },
    posts := posts, totalPosts := posts.length }

/-- The `TagsIndexPageData` built for the tags index page. -/
def tagsIndexPageData (g : Generator) (year : Nat) (infos : List TagInfo) :
    TagsIndexPageData :=
  { base := { siteTitle := g.siteTitle, pageTitle := "All Tags",
              description := "Browse all topics covered in this blog",
              year := year, blogRoot := g.blogRoot },
    tags := infos, totalTags := infos.length }

/-- Transcription of `Generator.assembleBlogWithTemplates`: nil-renderer
check, sort newest first, render every post page, render the index over the
BlogRoot-enriched posts (in Go the enrichment mutates the shared post
pointers, so the tag loops below also see the enriched posts), render one
page per deduplicated tag, then the alphabetically sorted tags index. -/
def assembleBlogWithTemplates (g : Generator) (year : Nat) (posts0 : List Post) :
    Except AssembleError GeneratedBlog :=
  match g.renderer with
  | none => .error .nilRenderer
  | some r =>
    let posts := sortByDate posts0
    match renderAllPosts r g year posts mapEmpty with
    | .error e => .error e
    | .ok postsMap =>
      let indexPosts := enrichPosts g posts
      match r.renderIndex (indexPageData g year indexPosts) with
      | .error c => .error (.renderIndexFailed c)
      | .ok index =>
        let allTags := getAllTags indexPosts
        match renderAllTags r g year indexPosts allTags mapEmpty with
        | .error e => .error e
        | .ok tagsMap =>
          let sortedInfos := sortTagInfos (tagInfosOf indexPosts allTags)
          match r.renderTagsIndex (tagsIndexPageData g year sortedInfos) with
          | .error c => .error (.renderTagsIndexFailed c)
          | .ok ti =>
            .ok { posts := postsMap, index := index,
                  tags := tagsMap, tagsIndex := ti }

/-! ## The directory scanner (ParseDirectory, src/unnamed/part_022)

`fs.WalkDir` is modelled as a sequence of walk events delivered to the
callback: either a visited entry (path, directory flag, file bytes) or a
walk-mechanism failure at a path (unreadable root or directory), exactly the
two ways the Go callback can be invoked.  The callback's returned error — if
it ever returned one — would abort the walk and become `WalkDir`'s return
value; the transcribed callback always returns nil.  The markdown decode
(`ParseFile`, a wrapper over the external goldmark pipeline) is abstracted
as the function argument `parseFile`. -/

/-- One invocation of the fs.WalkDir callback. -/
inductive WalkEvent where
  | entry (path : String) (isDir : Bool) (content : String) : WalkEvent
  | fail (path : String) (err : String) : WalkEvent
  deriving DecidableEq

/-- Transcription of the parser's `FileError`: a path paired with a cause. -/
structure FileError where
  path : String
  err : String
  deriving DecidableEq

/-- File-extension gate of the scan loop: only .md and .markdown files
(extension compared after lowering) are candidates. -/
def isMarkdownPath (path : String) : Bool :=
  let ext := lowerStr (pathExt path)
  ext = ".md" ∨ ext = ".markdown"

/-- Transcription of the fs.WalkDir callback body in `ParseDirectory`:
collect walk failures and parse failures, append parsed posts, always
return nil (the `Option String` component is the callback's returned
error, which is `none` on every branch of the source). -/
def walkCallback (parseFile : String → String → Except String Post)
    (acc : List Post × List FileError) (ev : WalkEvent) :
    (List Post × List FileError) × Option String :=
  match ev with
  | .fail path err => ((acc.1, acc.2 ++ [⟨path, err⟩]), none)
  | .entry path isDir content =>
    if isDir then (acc, none)
    else if ¬ isMarkdownPath path then (acc, none)
    else
      match parseFile path content with
      | .error e => ((acc.1, acc.2 ++ [⟨path, e⟩]), none)
      | .ok post => ((acc.1 ++ [post], acc.2), none)

/-- The fs.WalkDir driver: deliver events to the callback in order, stopping
with the callback's error if it ever returns one; the driver's `Option
String` is `WalkDir`'s returned error. -/
def walkDir (parseFile : String → String → Except String Post) :
    List WalkEvent → (List Post × List FileError) →
    (List Post × List FileError) × Option String
  | [], acc => (acc, none)
  | ev :: rest, acc =>
    match walkCallback parseFile acc ev with
    | (acc', none) => walkDir parseFile rest acc'
    | (acc', some e) => (acc', some e)

/-- Transcription of `Parser.ParseDirectory`: walk the tree collecting posts
and failures, return the fatal walk error if `WalkDir` failed, otherwise the
date-sorted posts together with the collected failures (Go returns the
`ParseErrors` aggregate exactly when the failure list is non-empty; both
cases are the `.ok` constructor here, carrying the list). -/
def parseDirectory (parseFile : String → String → Except String Post)
    (events : List WalkEvent) :
    Except String (List Post × List FileError) :=
  match walkDir parseFile events ([], []) with
  | (_, some e) => .error ("failed to walk directory: " ++ e)
  | ((posts, errs), none) => .ok (sortByDate posts, errs)

/-! ## The HTTP handler (pkg/server/handler.go)

`generateHandler` registers five patterns on an `http.ServeMux` (shown here
at the default blog root, where the configured prefix is empty): `GET
/posts` and `GET /` to the index handler, `GET /posts/{postName}` and `GET
/tags/{postName}` to `handlePost`, and `GET /tags` to the tags-index
handler.  `handleTag` is defined in the source but never registered.
Requests are modelled by their path segments; the mux's most-specific-wins
dispatch on these five patterns is the match below. -/

/-- An HTTP response as observed through the claims: a 200 body or a 404. -/
inductive HttpResponse where
  | ok (body : String) : HttpResponse
  | notFound : HttpResponse
  deriving DecidableEq

/-- Transcription of `handleIndex`: write the index bytes. -/
def handleIndex (blog : GeneratedBlog) : HttpResponse :=
  .ok blog.index

/-- Transcription of `handlePost`: look the path value up in the posts map,
404 when absent. -/
def handlePost (blog : GeneratedBlog) (postName : String) : HttpResponse :=
  match mapLookup blog.posts postName with
  | none => .notFound
  | some bits => .ok bits

/-- Transcription of `handleTagsIndex`: write the tags-index bytes. -/
def handleTagsIndex (blog : GeneratedBlog) : HttpResponse :=
  .ok blog.tagsIndex

/-- Transcription of `handleTag` (defined in the source but not reachable
from the mux): look the path value up in the tags map, 404 when absent. -/
def handleTag (blog : GeneratedBlog) (tagName : String) : HttpResponse :=
  match mapLookup blog.tags tagName with
  | none => .notFound
  | some bits => .ok bits

/-- Dispatch of the mux built by `generateHandler` at the default root, on
a GET request with the given path segments.  Note that the pattern
`tags/{postName}` is registered with `handlePost`, so both two-segment
routes share the posts-map handler; every unmatched path falls through to
the subtree pattern `GET /`, which serves the index. -/
def serveBlog (blog : GeneratedBlog) : List String → HttpResponse
  | ["posts"] => handleIndex blog
  | ["tags"] => handleTagsIndex blog
  | ["posts", postName] => handlePost blog postName
  | ["tags", postName] => handlePost blog postName
  | _ => handleIndex blog

/-! ## The live server (pkg/server/server.go)

`Server` stores the posts filesystem, the generator (whose `PostsDir` field
the refresh reads), and the atomically swapped handler.  Filesystems are
named abstractly by strings; `Generator.Generate` — the composition of the
scanner and assembler over a real filesystem — is abstracted as the function
argument `generate` from the generator's posts directory to a blog or an
error.  The stored `http.Handler` is a closure over a `GeneratedBlog`, so
the handler slot is modelled by the blog it closes over. -/

/-- The generator as embedded in the server: the claims touch only its
`PostsDir` field. -/
structure ServerGenerator where
  postsDir : String
  deriving DecidableEq

/-- The server state acted on by `UpdatePosts` and `refreshHandler`. -/
structure ServerState where
  postsDir : String
  generator : ServerGenerator
  handler : Option GeneratedBlog

/-- Transcription of `Server.refreshHandler`: regenerate from the
generator's current posts directory; on failure return the wrapped error
with the state unchanged (the handler store is never reached); on success
store the new handler. -/
def refreshHandler (generate : String → Except String GeneratedBlog)
    (s : ServerState) : ServerState × Option String :=
  match generate s.generator.postsDir with
  | .error e => (s, some ("failed to generate blog: " ++ e))
  | .ok blog => ({ s with handler := some blog }, none)

/-- Transcription of `Server.UpdatePosts`: install the new filesystem into
both the server's `postsDir` and the generator's `PostsDir` (under the
mutex), then refresh the handler, wrapping any refresh error. -/
def updatePosts (generate : String → Except String GeneratedBlog)
    (s : ServerState) (posts : String) : ServerState × Option String :=
  let s1 := { s with postsDir := posts,
                     generator := { s.generator with postsDir := posts } }
  match refreshHandler generate s1 with
  | (s2, some e) => (s2, some ("failed to refresh handler: " ++ e))
  | (s2, none) => (s2, none)

/-! ## Specification-side helper functions

These are not transcriptions; they are the vocabulary in which the theorems
below describe the transcribed functions (candidate files of a walk, its
successful and failing decodes, distinct-key counts). -/

/-- Insert a string into a list unless already present (the accumulator step
shared by the Go map key set and the tag set). -/
def insertAbsent (acc : List String) (t : String) : List String :=
  if t ∈ acc then acc else acc ++ [t]

/-- The distinct strings of a list, in first-occurrence order. -/
def dedupKeys (l : List String) : List String :=
  l.foldl insertAbsent []

/-- The number of distinct slugs carried by a list of posts. -/
def distinctSlugCount (posts : List Post) : Nat :=
  (dedupKeys (posts.map (fun p => p.slug))).length

/-- The candidate content files of a walk: non-directory entries whose
extension marks them as markdown, paired with their bytes. -/
def walkCandidates (events : List WalkEvent) : List (String × String) :=
  events.filterMap (fun ev =>
    match ev with
    | .entry path false content =>
      if isMarkdownPath path then some (path, content) else none
    | _ => none)

/-- The successfully decoded documents of a walk, in visit order. -/
def walkSuccesses (parseFile : String → String → Except String Post)
    (events : List WalkEvent) : List Post :=
  events.filterMap (fun ev =>
    match ev with
    | .entry path false content =>
      if isMarkdownPath path then (parseFile path content).toOption else none
    | _ => none)

/-- The failures a walk collects, in visit order: every walk-mechanism
failure and every candidate file whose decode fails, each paired with its
path and cause. -/
def walkFailures (parseFile : String → String → Except String Post)
    (events : List WalkEvent) : List FileError :=
  events.filterMap (fun ev =>
    match ev with
    | .fail path e => some ⟨path, e⟩
    | .entry path false content =>
      if isMarkdownPath path then
        match parseFile path content with
        | .error e => some ⟨path, e⟩
        | .ok _ => none
      else none
    | _ => none)

/-- Whether a walk delivers no walk-mechanism failures (every event is an
ordinary entry). -/
def noWalkFailures (events : List WalkEvent) : Bool :=
  events.all (fun ev => match ev with | .fail _ _ => false | _ => true)

/-! ## Concrete instances used by the closed theorems below -/

/-- A generated blog whose tags map holds a page for the topic "go" while
its posts map is empty. -/
def blogTagOnly : GeneratedBlog :=
  { posts := [], index := "INDEX", tags := [("go", "TAGPAGE")], tagsIndex := "TI" }

/-- First of two posts sharing a publish date. -/
def postA : Post := { title := "A", date := 1, description := "a" }

/-- Second of two posts sharing a publish date. -/
def postB : Post := { title := "B", date := 1, description := "b" }

/-- A post newer than `postA` and `postB`. -/
def postC : Post := { title := "C", date := 2, description := "c" }

/-- A valid document titled "Hello World", slug generated by the parser. -/
def postHelloA : Post :=
  Post.generateSlug
    { title := "Hello World", date := 1, description := "d1",
      content := "BODY-A", sourcePath := "a.md" }

/-- A valid document titled "Hello, World!", slug generated by the parser. -/
def postHelloB : Post :=
  Post.generateSlug
    { title := "Hello, World!", date := 2, description := "d2",
      content := "BODY-B", sourcePath := "b.md" }

/-- A post whose single topic label is "Go". -/
def postTagGo : Post :=
  { title := "P1", date := 1, description := "d", tags := ["Go"] }

/-- A post whose single topic label is "go". -/
def postTagGoLower : Post :=
  { title := "P2", date := 2, description := "d", tags := ["go"] }

/-- A renderer that succeeds on every page except the tags index. -/
def rendererTagsIndexFails : TemplateRenderer :=
  { renderPost := fun _ => .ok "P", renderIndex := fun _ => .ok "I",
    renderTag := fun _ => .ok "T",
    renderTagsIndex := fun _ => .error "tagsindex boom" }

/-- A generator configured with `rendererTagsIndexFails`. -/
def generatorTagsIndexFails : Generator :=
  { renderer := some rendererTagsIndexFails }

/-- A decode function under which "a.md" decodes and "b.md" fails
validation. -/
def parseFileAB : String → String → Except String Post := fun path _ =>
  if path = "a.md" then
    .ok { title := "A", date := 1, description := "d", slug := "a",
          content := "CA" }
  else .error "post missing required field: title (source: b.md)"

/-- The walk events of a scan visiting the two files decoded by
`parseFileAB`. -/
def eventsAB : List WalkEvent :=
  [.entry "a.md" false "CA-src", .entry "b.md" false "CB-src"]

/-- A walk whose only event is the walk mechanism failing on the root. -/
def eventsRootFail : List WalkEvent := [.fail "." "permission denied"]

/-- A generate function that always fails (a refresh whose regeneration
step fails). -/
def generateBoom : String → Except String GeneratedBlog := fun _ => .error "boom"

/-- A server currently serving an installed handler generated from the
directory "old". -/
def serverOld : ServerState :=
  { postsDir := "old", generator := { postsDir := "old" },
    handler := some { posts := [("p", "OLD")], index := "OLDIDX",
                      tags := [], tagsIndex := "" } }

/-! ## Lemmas about the exchange sort -/

theorem innerPass_length (x : Post) (xs : List Post) :
    (innerPass x xs).2.length = xs.length := by
  induction xs generalizing x with
  | nil => simp [innerPass]
  | cons y ys ih =>
    by_cases h : x.date < y.date
    · simp [innerPass, h, ih]
    · simp [innerPass, h, ih]

theorem innerPass_perm (x : Post) (xs : List Post) :
    List.Perm ((innerPass x xs).1 :: (innerPass x xs).2) (x :: xs) := by
  induction xs generalizing x with
  | nil => simp [innerPass]
  | cons y ys ih =>
    by_cases h : x.date < y.date
    · simp only [innerPass, if_pos h]
      exact (List.Perm.swap x (innerPass y ys).1 (innerPass y ys).2).trans
        (List.Perm.cons x (ih y))
    · simp only [innerPass, if_neg h]
      exact ((List.Perm.swap y (innerPass x ys).1 (innerPass x ys).2).trans
        (List.Perm.cons y (ih x))).trans (List.Perm.swap x y ys)

theorem innerPass_fst_ge (x : Post) (xs : List Post) :
    x.date ≤ (innerPass x xs).1.date := by
  induction xs generalizing x with
  | nil => simp [innerPass]
  | cons y ys ih =>
    by_cases h : x.date < y.date
    · simp only [innerPass, if_pos h]
      exact le_trans h.le (ih y)
    · simp only [innerPass, if_neg h]
      exact ih x

theorem innerPass_snd_le (x : Post) (xs : List Post) :
    ∀ p ∈ (innerPass x xs).2, p.date ≤ (innerPass x xs).1.date := by
  induction xs generalizing x with
  | nil => simp [innerPass]
  | cons y ys ih =>
    by_cases h : x.date < y.date
    · simp only [innerPass, if_pos h]
      intro p hp
      rcases List.mem_cons.mp hp with rfl | hp
      · exact le_trans h.le (innerPass_fst_ge y ys)
      · exact ih y p hp
    · simp only [innerPass, if_neg h]
      intro p hp
      rcases List.mem_cons.mp hp with rfl | hp
      · exact le_trans (not_lt.mp h) (innerPass_fst_ge x ys)
      · exact ih x p hp

theorem sortAux_perm : ∀ n (l : List Post), l.length ≤ n →
    List.Perm (sortAux n l) l := by
  intro n
  induction n with
  | zero =>
    intro l h
    have : l = [] := List.eq_nil_of_length_eq_zero (Nat.le_zero.mp h)
    subst this
    simp [sortAux]
  | succ n ih =>
    intro l h
    match l with
    | [] => simp [sortAux]
    | x :: xs =>
      simp only [sortAux]
      have hlen : (innerPass x xs).2.length ≤ n := by
        rw [innerPass_length]
        exact Nat.lt_succ_iff.mp (Nat.lt_of_lt_of_le (Nat.lt_succ_self _) h)
      exact (List.Perm.cons _ (ih _ hlen)).trans (innerPass_perm x xs)

theorem sortAux_sorted : ∀ n (l : List Post), l.length ≤ n →
    List.Chain' (fun a b => b.date ≤ a.date) (sortAux n l) := by
  intro n
  induction n with
  | zero =>
    intro l h
    have : l = [] := List.eq_nil_of_length_eq_zero (Nat.le_zero.mp h)
    subst this
    simp [sortAux]
  | succ n ih =>
    intro l h
    match l with
    | [] => simp [sortAux]
    | x :: xs =>
      simp only [sortAux]
      have hlen : (innerPass x xs).2.length ≤ n := by
        rw [innerPass_length]
        exact Nat.lt_succ_iff.mp (Nat.lt_of_lt_of_le (Nat.lt_succ_self _) h)
      refine List.chain'_cons'.mpr ⟨?_, ih _ hlen⟩
      intro b hb
      have hmem : b ∈ sortAux n (innerPass x xs).2 := List.mem_of_mem_head? hb
      have hmem2 : b ∈ (innerPass x xs).2 :=
        (sortAux_perm n _ hlen).mem_iff.mp hmem
      exact innerPass_snd_le x xs b hmem2

theorem sortByDate_perm (l : List Post) : List.Perm (sortByDate l) l :=
  sortAux_perm l.length l le_rfl

theorem sortByDate_length (l : List Post) : (sortByDate l).length = l.length :=
  (sortByDate_perm l).length_eq

/-! ## Lemmas about the map model and key-set folds -/

theorem mapKeys_mapInsert {V : Type} (m : GoMap V) (k : String) (v : V) :
    mapKeys (mapInsert m k v) = insertAbsent (mapKeys m) k := by
  induction m with
  | nil => simp [mapInsert, mapKeys, insertAbsent]
  | cons kv rest ih =>
    obtain ⟨k', v'⟩ := kv
    by_cases h : k' = k
    · subst h
      simp [mapInsert, mapKeys, insertAbsent]
    · have hne : ¬ k = k' := fun e => h e.symm
      simp only [mapInsert, if_neg h, mapKeys, List.map_cons, insertAbsent,
        List.mem_cons, hne, false_or] at *
      by_cases h2 : k ∈ List.map Prod.fst rest
      · simp [h2] at ih ⊢
        exact ih
      · simp [h2] at ih ⊢
        exact ih

theorem mem_foldl_insertAbsent (l : List String) :
    ∀ (acc : List String) (x : String),
      (x ∈ l.foldl insertAbsent acc ↔ x ∈ acc ∨ x ∈ l) := by
  induction l with
  | nil => simp
  | cons t ts ih =>
    intro acc x
    simp only [List.foldl_cons, ih, List.mem_cons]
    by_cases h : t ∈ acc
    · simp only [insertAbsent, if_pos h]
      constructor
      · rintro (ha | hts)
        · exact Or.inl ha
        · exact Or.inr (Or.inr hts)
      · rintro (ha | rfl | hts)
        · exact Or.inl ha
        · exact Or.inl h
        · exact Or.inr hts
    · simp only [insertAbsent, if_neg h, List.mem_append, List.mem_singleton]
      constructor
      · rintro ((ha | rfl) | hts)
        · exact Or.inl ha
        · exact Or.inr (Or.inl rfl)
        · exact Or.inr (Or.inr hts)
      · rintro (ha | rfl | hts)
        · exact Or.inl (Or.inl ha)
        · exact Or.inl (Or.inr rfl)
        · exact Or.inr hts

theorem nodup_foldl_insertAbsent (l : List String) :
    ∀ (acc : List String), acc.Nodup → (l.foldl insertAbsent acc).Nodup := by
  induction l with
  | nil => intro acc h; simpa using h
  | cons t ts ih =>
    intro acc h
    simp only [List.foldl_cons]
    apply ih
    by_cases ht : t ∈ acc
    · simpa [insertAbsent, ht] using h
    · simp only [insertAbsent, if_neg ht]
      simp [List.nodup_append, h, ht]

theorem mapKeys_foldl_insert (posts : List Post) :
    ∀ (m : GoMap String),
      mapKeys (posts.foldl (fun m p => mapInsert m p.slug p.content) m)
        = (posts.map (fun p => p.slug)).foldl insertAbsent (mapKeys m) := by
  induction posts with
  | nil => intro m; simp
  | cons p ps ih =>
    intro m
    simp only [List.foldl_cons, List.map_cons, ih, mapKeys_mapInsert]

/-! ## Lemmas about the templated render loops -/

theorem renderAllPosts_ok_keys (r : TemplateRenderer) (g : Generator) (year : Nat) :
    ∀ (l : List Post) (acc m : GoMap String),
      renderAllPosts r g year l acc = .ok m →
      mapKeys m = (l.map (fun p => p.slug)).foldl insertAbsent (mapKeys acc) := by
  intro l
  induction l with
  | nil =>
    intro acc m h
    simp only [renderAllPosts, Except.ok.injEq] at h
    subst h
    simp
  | cons p ps ih =>
    intro acc m h
    cases hr : r.renderPost (postPageData g year p) with
    | error c =>
      simp only [renderAllPosts, hr] at h
      cases h
    | ok bytes =>
      simp only [renderAllPosts, hr] at h
      simp only [List.map_cons, List.foldl_cons]
      rw [ih _ _ h, mapKeys_mapInsert]

theorem renderAllPosts_error_of_mem (r : TemplateRenderer) (g : Generator)
    (year : Nat) :
    ∀ (l : List Post),
      (∃ p ∈ l, ∃ c, r.renderPost (postPageData g year p) = .error c) →
      ∀ acc, ∃ e, renderAllPosts r g year l acc = .error e := by
  intro l
  induction l with
  | nil =>
    rintro ⟨p, hp, _⟩
    cases hp
  | cons q qs ih =>
    rintro ⟨p, hp, c, hc⟩ acc
    cases hr : r.renderPost (postPageData g year q) with
    | error c2 =>
      exact ⟨.renderPostFailed q.slug c2, by simp only [renderAllPosts, hr]⟩
    | ok bytes =>
      rcases List.mem_cons.mp hp with rfl | hp2
      · rw [hr] at hc
        cases hc
      · obtain ⟨e, he⟩ := ih ⟨p, hp2, c, hc⟩ (mapInsert acc q.slug bytes)
        exact ⟨e, by simp only [renderAllPosts, hr]; exact he⟩

theorem renderAllTags_error_of_mem (r : TemplateRenderer) (g : Generator)
    (year : Nat) (posts : List Post) :
    ∀ (l : List String),
      (∃ t ∈ l, ∃ c, r.renderTag (tagPageData g year posts t) = .error c) →
      ∀ acc, ∃ e, renderAllTags r g year posts l acc = .error e := by
  intro l
  induction l with
  | nil =>
    rintro ⟨t, ht, _⟩
    cases ht
  | cons u us ih =>
    rintro ⟨t, ht, c, hc⟩ acc
    cases hr : r.renderTag (tagPageData g year posts u) with
    | error c2 =>
      exact ⟨.renderTagFailed u c2, by simp only [renderAllTags, hr]⟩
    | ok bytes =>
      rcases List.mem_cons.mp ht with rfl | ht2
      · rw [hr] at hc
        cases hc
      · obtain ⟨e, he⟩ := ih ⟨t, ht2, c, hc⟩ (mapInsert acc u bytes)
        exact ⟨e, by simp only [renderAllTags, hr]; exact he⟩

theorem dedupKeys_length_eq_card (l : List String) :
    (dedupKeys l).length = l.toFinset.card := by
  have h1 : (dedupKeys l).Nodup := nodup_foldl_insertAbsent l [] (by simp)
  have h2 : ∀ x, x ∈ dedupKeys l ↔ x ∈ l := by
    intro x
    simpa [dedupKeys] using mem_foldl_insertAbsent l [] x
  have h3 : (dedupKeys l).toFinset = l.toFinset := by
    ext x
    simp [List.mem_toFinset, h2]
  calc (dedupKeys l).length = (dedupKeys l).toFinset.card := by
        rw [List.toFinset_card_of_nodup h1]
    _ = l.toFinset.card := by rw [h3]

theorem foldl_insertAbsent_length_eq_card (l : List String) :
    (l.foldl insertAbsent []).length = l.toFinset.card :=
  dedupKeys_length_eq_card l

/-! ## Characterization of the walk -/

theorem walkDir_run (pf : String → String → Except String Post) :
    ∀ (events : List WalkEvent) (posts0 : List Post) (errs0 : List FileError),
      walkDir pf events (posts0, errs0)
        = ((posts0 ++ walkSuccesses pf events,
            errs0 ++ walkFailures pf events), none) := by
  intro events
  induction events with
  | nil => intro posts0 errs0; simp [walkDir, walkSuccesses, walkFailures]
  | cons ev rest ih =>
    intro posts0 errs0
    cases ev with
    | fail path e =>
      simp [walkDir, walkCallback, walkSuccesses, walkFailures, ih,
        List.filterMap_cons]
    | entry path isDir content =>
      cases isDir with
      | true =>
        simp [walkDir, walkCallback, walkSuccesses, walkFailures, ih,
          List.filterMap_cons]
      | false =>
        by_cases hm : isMarkdownPath path
        · cases hpf : pf path content with
          | error e =>
            simp [walkDir, walkCallback, walkSuccesses, walkFailures, ih,
              List.filterMap_cons, hm, hpf, Except.toOption]
          | ok post =>
            simp [walkDir, walkCallback, walkSuccesses, walkFailures, ih,
              List.filterMap_cons, hm, hpf, Except.toOption]
        · simp [walkDir, walkCallback, walkSuccesses, walkFailures, ih,
            List.filterMap_cons, hm]

theorem parseDirectory_run (pf : String → String → Except String Post)
    (events : List WalkEvent) :
    parseDirectory pf events
      = .ok (sortByDate (walkSuccesses pf events), walkFailures pf events) := by
  simp [parseDirectory, walkDir_run]

theorem walk_counts (pf : String → String → Except String Post) :
    ∀ (events : List WalkEvent), noWalkFailures events = true →
      (walkSuccesses pf events).length + (walkFailures pf events).length
        = (walkCandidates events).length := by
  intro events
  induction events with
  | nil => intro _; simp [walkSuccesses, walkFailures, walkCandidates]
  | cons ev rest ih =>
    intro h
    cases ev with
    | fail path e =>
      exfalso
      simp [noWalkFailures] at h
    | entry path isDir content =>
      have hrest : noWalkFailures rest = true := by
        simpa [noWalkFailures] using h
      have h2 := ih hrest
      cases isDir with
      | true =>
        simpa [walkSuccesses, walkFailures, walkCandidates,
          List.filterMap_cons] using h2
      | false =>
        by_cases hm : isMarkdownPath path
        · cases hpf : pf path content with
          | error e =>
            simp only [walkSuccesses, walkFailures, walkCandidates,
              List.filterMap_cons, hm, hpf, Except.toOption, if_true,
              List.length_cons] at h2 ⊢
            omega
          | ok post =>
            simp only [walkSuccesses, walkFailures, walkCandidates,
              List.filterMap_cons, hm, hpf, Except.toOption, if_true,
              List.length_cons] at h2 ⊢
            omega
        · simpa [walkSuccesses, walkFailures, walkCandidates,
            List.filterMap_cons, hm] using h2

theorem walkCandidates_cons_subset (ev : WalkEvent) (rest : List WalkEvent) :
    walkCandidates rest ⊆ walkCandidates (ev :: rest) := by
  intro x hx
  cases ev with
  | fail p e => simpa [walkCandidates, List.filterMap_cons] using hx
  | entry p d c =>
    cases d with
    | true => simpa [walkCandidates, List.filterMap_cons] using hx
    | false =>
      by_cases hm : isMarkdownPath p
      · simp only [walkCandidates, List.filterMap_cons, hm, if_true]
        exact List.mem_cons_of_mem _ hx
      · simpa [walkCandidates, List.filterMap_cons, hm] using hx

theorem walkFailures_pairing (pf : String → String → Except String Post) :
    ∀ (events : List WalkEvent), noWalkFailures events = true →
      ∀ f ∈ walkFailures pf events,
        ∃ c, (f.path, c) ∈ walkCandidates events ∧ pf f.path c = .error f.err := by
  intro events
  induction events with
  | nil => intro _ f hf; simp [walkFailures] at hf
  | cons ev rest ih =>
    intro h f hf
    cases ev with
    | fail path e =>
      exfalso
      simp [noWalkFailures] at h
    | entry path isDir content =>
      have hrest : noWalkFailures rest = true := by
        simpa [noWalkFailures] using h
      cases isDir with
      | true =>
        simp only [walkFailures, List.filterMap_cons] at hf
        obtain ⟨c, hc, hpfc⟩ := ih hrest f hf
        exact ⟨c, walkCandidates_cons_subset _ _ hc, hpfc⟩
      | false =>
        by_cases hm : isMarkdownPath path
        · cases hpf : pf path content with
          | error e =>
            simp only [walkFailures, List.filterMap_cons, hm, hpf, if_true,
              List.mem_cons] at hf
            rcases hf with rfl | hf
            · refine ⟨content, ?_, hpf⟩
              simp [walkCandidates, List.filterMap_cons, hm]
            · obtain ⟨c, hc, hpfc⟩ := ih hrest f hf
              exact ⟨c, walkCandidates_cons_subset _ _ hc, hpfc⟩
          | ok post =>
            simp only [walkFailures, List.filterMap_cons, hm, hpf, if_true] at hf
            obtain ⟨c, hc, hpfc⟩ := ih hrest f hf
            exact ⟨c, walkCandidates_cons_subset _ _ hc, hpfc⟩
        · simp only [walkFailures, List.filterMap_cons, hm] at hf
          obtain ⟨c, hc, hpfc⟩ := ih hrest f hf
          exact ⟨c, walkCandidates_cons_subset _ _ hc, hpfc⟩

/-! ## Claim theorems -/

/-- C1: the claim that GET {root}/tags/{t} answers from the topics map is
false on the code: `generateHandler` registers the pattern
`tags/{postName}` with `handlePost`, which looks the name up in the posts
map.  With a blog whose tags map holds a page for "go" and whose posts map
is empty, the request GET /tags/go returns 404 even though the topic is
present (and the unregistered `handleTag` would have served it). -/
theorem c1_tags_route_reads_posts_map :
    serveBlog blogTagOnly ["tags", "go"] = .notFound ∧
    mapLookup blogTagOnly.tags "go" = some "TAGPAGE" ∧
    handleTag blogTagOnly "go" = .ok "TAGPAGE" := by
  refine ⟨?_, ?_, ?_⟩ <;> rfl

/-- C2: the claim that `SortByDate` is stable is false on the code: the
nested-loop exchange sort swaps a displaced element past its equal.  For
the input [A, B, C] where A and B share date 1 and C has date 2, the sort
produces [C, B, A]: A preceded B before sorting and follows it after,
although their dates are equal (the source's own doc comment promises
that equal-date posts keep their relative order). -/
theorem c2_sortByDate_unstable :
    postA.date = postB.date ∧
    sortByDate [postA, postB, postC] = [postC, postB, postA] := by
  refine ⟨rfl, ?_⟩
  rfl

/-- C9: after `SortByDate`, every adjacent pair (a, b) with a preceding b
satisfies a.Date >= b.Date — the list is ordered by publish date
descending. -/
theorem c9_sortByDate_sorted_descending (l : List Post) :
    List.Chain' (fun a b => b.date ≤ a.date) (sortByDate l) :=
  sortAux_sorted l.length l le_rfl

/-- C5: the claim that the topic set is deduplicated case-insensitively is
false on the code: `GetAllTags` keys its set by the exact tag string, so
the labels "Go" and "go" contribute two topics, not one. -/
theorem c5_case_variant_tags_counterexample :
    getAllTags [postTagGo, postTagGoLower] = ["Go", "go"] := by
  rfl

/-- C5 amended: the topic set is deduplicated under exact (case-sensitive)
string equality — it has no duplicate entries, and a label is in it exactly
when some document carries that exact label; labels differing only in
letter case therefore yield distinct topics. -/
theorem c5_getAllTags_dedup_exact (pl : List Post) :
    (getAllTags pl).Nodup ∧
    ∀ t, (t ∈ getAllTags pl ↔ ∃ p ∈ pl, t ∈ p.tags) := by
  have hrw : getAllTags pl
      = pl.foldl (fun acc p => p.tags.foldl insertAbsent acc) [] := rfl
  have hnodup : ∀ (l : List Post) (acc : List String), acc.Nodup →
      (l.foldl (fun acc p => p.tags.foldl insertAbsent acc) acc).Nodup := by
    intro l
    induction l with
    | nil => intro acc h; simpa using h
    | cons p ps ih =>
      intro acc h
      exact ih _ (nodup_foldl_insertAbsent p.tags acc h)
  have hmem : ∀ (l : List Post) (acc : List String) (x : String),
      (x ∈ l.foldl (fun acc p => p.tags.foldl insertAbsent acc) acc
        ↔ x ∈ acc ∨ ∃ p ∈ l, x ∈ p.tags) := by
    intro l
    induction l with
    | nil => intro acc x; simp
    | cons p ps ih =>
      intro acc x
      simp only [List.foldl_cons, ih, mem_foldl_insertAbsent,
        List.mem_cons]
      constructor
      · rintro ((ha | ht) | ⟨q, hq, hx⟩)
        · exact Or.inl ha
        · exact Or.inr ⟨p, Or.inl rfl, ht⟩
        · exact Or.inr ⟨q, Or.inr hq, hx⟩
      · rintro (ha | ⟨q, (rfl | hq), hx⟩)
        · exact Or.inl (Or.inl ha)
        · exact Or.inl (Or.inr hx)
        · exact Or.inr ⟨q, hq, hx⟩
  rw [hrw]
  refine ⟨hnodup pl [] (by simp), ?_⟩
  intro t
  simpa using hmem pl [] t

/-- C4: the claim that a walk-mechanism failure is returned as a fatal
error, immediately and without partial results, is false on the code: the
WalkDir callback collects the error as a per-file failure and returns nil,
so an unreadable root produces an ordinary partial result whose failure
list holds the root's path and cause. -/
theorem c4_walk_failure_downgraded_counterexample :
    parseDirectory parseFileAB eventsRootFail
      = .ok ([], [{ path := ".", err := "permission denied" }]) := by
  rfl

/-- C4 amended: `ParseDirectory` never returns the distinct fatal
walk error: every scan returns the date-sorted decoded documents together
with the collected per-file failures, and a walk-mechanism failure is
recorded among those failures (paired with its path and cause) rather than
aborting the scan — the fatal branch after the walk is unreachable because
the callback returns nil on every path. -/
theorem c4_parseDirectory_never_fatal
    (pf : String → String → Except String Post) (events : List WalkEvent) :
    parseDirectory pf events
      = .ok (sortByDate (walkSuccesses pf events), walkFailures pf events) :=
  parseDirectory_run pf events

/-- C3: the claim that the posts mapping has one entry per valid input
document is false on the code: the two valid documents titled
"Hello World" and "Hello, World!" slugify to the same slug "hello-world",
so raw assembly produces a single posts entry for the two documents (the
later overwrites the earlier). -/
theorem c3_slug_collision_counterexample :
    postHelloA.validate = .ok () ∧ postHelloB.validate = .ok () ∧
    postHelloA.slug = postHelloB.slug ∧
    mapSize (assembleRawBlog [postHelloA, postHelloB]).posts = 1 := by
  refine ⟨rfl, rfl, rfl, rfl⟩

/-- C3 amended: for every assembled bundle (raw mode, or templated mode
when assembly succeeds) the posts mapping has pairwise-distinct keys, and
its number of entries equals the number of distinct slugs among the input
documents; documents whose slugs coincide collapse onto one key. -/
theorem c3_posts_keys_distinct_count
    (g : Generator) (year : Nat) (posts : List Post) (blog : GeneratedBlog)
    (h : blog = assembleRawBlog posts ∨
         assembleBlogWithTemplates g year posts = .ok blog) :
    (mapKeys blog.posts).Nodup ∧
    mapSize blog.posts = distinctSlugCount posts := by
  have main : ∀ (src : List Post),
      mapKeys blog.posts
        = (src.map (fun p => p.slug)).foldl insertAbsent [] →
      List.Perm src posts →
      (mapKeys blog.posts).Nodup ∧
        mapSize blog.posts = distinctSlugCount posts := by
    intro src hkeys hperm
    constructor
    · rw [hkeys]
      exact nodup_foldl_insertAbsent _ [] (by simp)
    · have hlen : mapSize blog.posts = (mapKeys blog.posts).length := by
        simp [mapSize, mapKeys]
      rw [hlen, hkeys, foldl_insertAbsent_length_eq_card]
      have hfin : (src.map (fun p => p.slug)).toFinset
          = (posts.map (fun p => p.slug)).toFinset :=
        List.toFinset_eq_of_perm _ _ (hperm.map (fun p => p.slug))
      rw [hfin]
      unfold distinctSlugCount
      rw [dedupKeys_length_eq_card]
  rcases h with rfl | htempl
  · apply main posts _ (List.Perm.refl posts)
    have := mapKeys_foldl_insert posts mapEmpty
    simpa [assembleRawBlog, mapEmpty, mapKeys] using this
  · cases hrend : g.renderer with
    | none => simp [assembleBlogWithTemplates, hrend] at htempl
    | some r =>
      simp only [assembleBlogWithTemplates, hrend] at htempl
      cases hp : renderAllPosts r g year (sortByDate posts) mapEmpty with
      | error e => simp [hp] at htempl
      | ok pm =>
        simp only [hp] at htempl
        cases hidx :
            r.renderIndex (indexPageData g year (enrichPosts g (sortByDate posts))) with
        | error c => simp [hidx] at htempl
        | ok idx =>
          simp only [hidx] at htempl
          cases ht : renderAllTags r g year (enrichPosts g (sortByDate posts))
              (getAllTags (enrichPosts g (sortByDate posts))) mapEmpty with
          | error e => simp [ht] at htempl
          | ok tm =>
            simp only [ht] at htempl
            cases hti : r.renderTagsIndex (tagsIndexPageData g year
                (sortTagInfos (tagInfosOf (enrichPosts g (sortByDate posts))
                  (getAllTags (enrichPosts g (sortByDate posts)))))) with
            | error c => simp [hti] at htempl
            | ok ti =>
              simp only [hti, Except.ok.injEq] at htempl
              subst htempl
              apply main (sortByDate posts) _ (sortByDate_perm posts)
              have := renderAllPosts_ok_keys r g year (sortByDate posts)
                mapEmpty pm hp
              simpa [mapEmpty, mapKeys] using this

/-- C3 amended, instantiated: the raw bundle of the two colliding documents
has distinct keys and exactly as many entries as there are distinct slugs. -/
theorem c3_posts_keys_distinct_count_witness :
    (mapKeys (assembleRawBlog [postHelloA, postHelloB]).posts).Nodup ∧
    mapSize (assembleRawBlog [postHelloA, postHelloB]).posts
      = distinctSlugCount [postHelloA, postHelloB] :=
  c3_posts_keys_distinct_count { } 0 [postHelloA, postHelloB] _ (Or.inl rfl)

/-- C8: a scan over candidate content files of which some fail to decode
returns exactly the successfully decoded documents (none dropped) and
exactly one failure per failing file, each pairing the file's path with its
cause: the document count plus the failure count equals the candidate
count, and every collected failure names a candidate whose decode failed
with that cause. -/
theorem c8_partial_failure_isolation
    (pf : String → String → Except String Post) (events : List WalkEvent)
    (h : noWalkFailures events = true) :
    ∃ posts errs, parseDirectory pf events = .ok (posts, errs) ∧
      posts.length + errs.length = (walkCandidates events).length ∧
      errs = walkFailures pf events ∧
      ∀ f ∈ errs, ∃ c, (f.path, c) ∈ walkCandidates events ∧
        pf f.path c = .error f.err := by
  refine ⟨sortByDate (walkSuccesses pf events), walkFailures pf events,
    parseDirectory_run pf events, ?_, rfl, walkFailures_pairing pf events h⟩
  rw [sortByDate_length]
  exact walk_counts pf events h

/-- C8, instantiated: scanning two candidate files of which one fails to
decode yields one document and one failure. -/
theorem c8_partial_failure_isolation_witness :
    noWalkFailures eventsAB = true ∧
    (∃ posts errs, parseDirectory parseFileAB eventsAB = .ok (posts, errs) ∧
      posts.length + errs.length = (walkCandidates eventsAB).length ∧
      errs = walkFailures parseFileAB eventsAB ∧
      ∀ f ∈ errs, ∃ c, (f.path, c) ∈ walkCandidates eventsAB ∧
        parseFileAB f.path c = .error f.err) :=
  ⟨rfl, c8_partial_failure_isolation parseFileAB eventsAB rfl⟩

/-- C7: in templated mode, if any single page render the assembly attempts
(a post page, the landing page, a topic page, or the topic index) returns
an error, the whole assembly returns an error — whose constructor carries
the offending slug or topic where one exists — and no bundle is returned. -/
theorem c7_render_failure_aborts_assembly
    (g : Generator) (r : TemplateRenderer) (year : Nat) (posts0 : List Post)
    (hrend : g.renderer = some r)
    (hfail :
      (∃ p ∈ sortByDate posts0, ∃ c,
          r.renderPost (postPageData g year p) = .error c) ∨
      (∃ c, r.renderIndex
          (indexPageData g year (enrichPosts g (sortByDate posts0))) = .error c) ∨
      (∃ t ∈ getAllTags (enrichPosts g (sortByDate posts0)), ∃ c,
          r.renderTag
            (tagPageData g year (enrichPosts g (sortByDate posts0)) t) = .error c) ∨
      (∃ c, r.renderTagsIndex (tagsIndexPageData g year
          (sortTagInfos (tagInfosOf (enrichPosts g (sortByDate posts0))
            (getAllTags (enrichPosts g (sortByDate posts0)))))) = .error c)) :
    ∃ e, assembleBlogWithTemplates g year posts0 = .error e := by
  cases hp : renderAllPosts r g year (sortByDate posts0) mapEmpty with
  | error e =>
    exact ⟨e, by simp only [assembleBlogWithTemplates, hrend, hp]⟩
  | ok pm =>
    have h1 : ¬ (∃ p ∈ sortByDate posts0, ∃ c,
        r.renderPost (postPageData g year p) = .error c) := by
      intro hx
      obtain ⟨e, he⟩ := renderAllPosts_error_of_mem r g year _ hx mapEmpty
      rw [hp] at he
      cases he
    cases hidx :
        r.renderIndex (indexPageData g year (enrichPosts g (sortByDate posts0))) with
    | error c =>
      exact ⟨.renderIndexFailed c,
        by simp only [assembleBlogWithTemplates, hrend, hp, hidx]⟩
    | ok idx =>
      have h2 : ¬ (∃ c, r.renderIndex
          (indexPageData g year (enrichPosts g (sortByDate posts0))) = .error c) := by
        rintro ⟨c, hc⟩
        rw [hidx] at hc
        cases hc
      cases ht : renderAllTags r g year (enrichPosts g (sortByDate posts0))
          (getAllTags (enrichPosts g (sortByDate posts0))) mapEmpty with
      | error e =>
        exact ⟨e, by simp only [assembleBlogWithTemplates, hrend, hp, hidx, ht]⟩
      | ok tm =>
        have h3 : ¬ (∃ t ∈ getAllTags (enrichPosts g (sortByDate posts0)), ∃ c,
            r.renderTag
              (tagPageData g year (enrichPosts g (sortByDate posts0)) t)
                = .error c) := by
          intro hx
          obtain ⟨e, he⟩ := renderAllTags_error_of_mem r g year _ _ hx mapEmpty
          rw [ht] at he
          cases he
        rcases hfail with hx | hx | hx | hx
        · exact absurd hx h1
        · exact absurd hx h2
        · exact absurd hx h3
        · obtain ⟨c, hc⟩ := hx
          exact ⟨.renderTagsIndexFailed c,
            by simp only [assembleBlogWithTemplates, hrend, hp, hidx, ht, hc]⟩

/-- C7, instantiated: a renderer that errors on the topic index makes the
whole templated assembly fail, with no bundle produced (the spec's
scenario). -/
theorem c7_render_failure_aborts_assembly_witness :
    generatorTagsIndexFails.renderer = some rendererTagsIndexFails ∧
    (∃ c, rendererTagsIndexFails.renderTagsIndex (tagsIndexPageData
        generatorTagsIndexFails 2024
        (sortTagInfos (tagInfosOf
          (enrichPosts generatorTagsIndexFails (sortByDate []))
          (getAllTags (enrichPosts generatorTagsIndexFails (sortByDate [])))))) = .error c) ∧
    (∃ e, assembleBlogWithTemplates generatorTagsIndexFails 2024 [] = .error e) :=
  ⟨rfl, ⟨"tagsindex boom", rfl⟩,
    c7_render_failure_aborts_assembly generatorTagsIndexFails
      rendererTagsIndexFails 2024 [] rfl
      (Or.inr (Or.inr (Or.inr ⟨"tagsindex boom", rfl⟩)))⟩

/-- C6: when the regeneration step of a refresh fails, `UpdatePosts`
leaves the stored handler exactly as it was — the previously installed
bundle keeps serving — and returns the wrapped error to its caller. -/
theorem c6_failed_refresh_keeps_old_handler
    (generate : String → Except String GeneratedBlog) (s : ServerState)
    (posts e : String) (h : generate posts = .error e) :
    (updatePosts generate s posts).1.handler = s.handler ∧
    (updatePosts generate s posts).2
      = some ("failed to refresh handler: "
          ++ ("failed to generate blog: " ++ e)) := by
  simp [updatePosts, refreshHandler, h]

/-- C6, instantiated: a refresh whose generation always fails leaves the
old server handler in place and surfaces the wrapped error. -/
theorem c6_failed_refresh_keeps_old_handler_witness :
    generateBoom "new" = .error "boom" ∧
    ((updatePosts generateBoom serverOld "new").1.handler = serverOld.handler ∧
     (updatePosts generateBoom serverOld "new").2
       = some ("failed to refresh handler: "
           ++ ("failed to generate blog: " ++ "boom"))) :=
  ⟨rfl, c6_failed_refresh_keeps_old_handler generateBoom serverOld "new" "boom" rfl⟩

/-- C10: whenever `UpdatePosts` returns an error, the server's posts
directory and the generator's posts directory have nevertheless been
replaced by the new filesystem — only the handler keeps its old value — so
a later refresh regenerates from the new filesystem. -/
theorem c10_posts_dir_updated_despite_failure
    (generate : String → Except String GeneratedBlog) (s : ServerState)
    (posts : String) (h : (updatePosts generate s posts).2 ≠ none) :
    (updatePosts generate s posts).1.postsDir = posts ∧
    (updatePosts generate s posts).1.generator.postsDir = posts := by
  cases hg : generate posts with
  | error e => simp [updatePosts, refreshHandler, hg]
  | ok blog => simp [updatePosts, refreshHandler, hg]

/-- C10, instantiated: after a failing update to the directory "newer",
both directory fields hold "newer". -/
theorem c10_posts_dir_updated_despite_failure_witness :
    (updatePosts generateBoom serverOld "newer").2 ≠ none ∧
    ((updatePosts generateBoom serverOld "newer").1.postsDir = "newer" ∧
     (updatePosts generateBoom serverOld "newer").1.generator.postsDir = "newer") :=
  ⟨by simp [updatePosts, refreshHandler, generateBoom],
   c10_posts_dir_updated_despite_failure generateBoom serverOld "newer"
     (by simp [updatePosts, refreshHandler, generateBoom])⟩

end GoBlog
